import Mathlib

/-!
Verification of the transaction lifecycle and lock coordination subsystem of
`decaf-ts/transactional-decorators`, as a shallow embedding in Lean 4.

The embedding follows the TypeScript sources:
  * `src/locks/Lock.ts`              — the binary FIFO lock (`Lock`);
  * `src/locks/SynchronousLock.ts`   — the counting admission lock
    (`SynchronousLock.submit` / `fireTransaction` / `release`);
  * `src/Transaction.ts`             — the `Transaction` entity
    (`bindTransaction`, `fire`, `wait`, `applyGlobalTimeout`,
    `bindToTransaction`, `contextTransaction`);
  * `src/decorators.ts`              — the `transactional` method wrapper
    (the `exitFunction` routing and the active-transaction dispatch).

JavaScript promises are sequentialized: an asynchronous execution is modelled
by its settlement — `none` for a promise that never settles, or
`some (u, outcome)` for a promise settling at logical time `u` ms with
`outcome`.  Deferred scheduling (`process.nextTick` / `setTimeout(cb, 0)`) is
modelled by a function returning the continuation to be scheduled instead of
invoking it.
-/

namespace TransactionalDecorators

/-- Error values that flow through the transaction subsystem.
`timeout` mirrors `TimeoutError` from `src/errors` (carrying the configured
timeout in ms), `missingMethod` mirrors the `Missing the method` error thrown
by `Transaction.fire`, and `action` stands for an arbitrary error raised by a
wrapped method, identified by a code. -/
inductive TxError where
  | timeout (ms : Int)
  | missingMethod
  | action (code : Nat)
deriving DecidableEq, Repr

/-! ## `Lock` (src/locks/Lock.ts)

State: a `locked` flag and a FIFO `queue` of suspended continuations
(`LockCallable` resolvers).  A waiter is identified by a `Nat` token. -/

structure LockState where
  locked : Bool
  queue : List Nat
deriving DecidableEq, Repr

/-- The freshly constructed `Lock`: unlocked, empty queue. -/
def LockState.init : LockState := { locked := false, queue := [] }

/-- `Lock.acquire` (src/locks/Lock.ts lines 28-37): when `locked`, push the
caller's resolver onto the queue and leave the caller suspended (`false`);
otherwise set `locked` and grant immediately (`true`). -/
def LockState.acquire (s : LockState) (w : Nat) : LockState × Bool :=
  if s.locked then ({ s with queue := s.queue ++ [w] }, false)
  else ({ s with locked := true }, true)

/-- `Lock.release` (src/locks/Lock.ts lines 42-55): shift the queue; when a
waiter is present, hand it back for deferred scheduling
(`process.nextTick`/`setTimeout`) — the `locked` flag is untouched; when the
queue is empty, clear `locked`.  The returned `Option Nat` is the continuation
the code schedules on the next tick (never run inside `release` itself). -/
def LockState.release (s : LockState) : LockState × Option Nat :=
  match s.queue with
  | [] => ({ s with locked := false }, none)
  | w :: rest => ({ s with queue := rest }, some w)

/-! ## `SynchronousLock` (src/locks/SynchronousLock.ts)

The lock keeps a capacity `counter`, a FIFO `pendingTransactions` queue and a
`currentTransaction` reference.  A transaction is modelled by an object
identity `tag` (distinct JS objects have distinct tags) and its `id` field
(`Date.now()` at construction, src/Transaction.ts line 99) — the re-entrancy
check in `submit` compares ids only.

The internal mutex (`this.lock`) serializes each method's critical sections;
the embedding accordingly treats `submit` and `release` as atomic steps.  The
step state is instrumented with ghost logs: `active` records the tags of
transactions that have been fired (`transaction.fire()` reached) and not yet
released, and `firedLog` / `enqueuedLog` / `dequeuedLog` record the order of
fire, enqueue and dequeue events. -/

structure Tx where
  tag : Nat
  id : Nat
deriving DecidableEq, Repr

structure SLState where
  counter : Nat
  pending : List Tx
  current : Option Tx
  active : List Nat
  firedLog : List Tx
  enqueuedLog : List Tx
  dequeuedLog : List Tx
deriving DecidableEq, Repr

/-- `new SynchronousLock(n)`: capacity `n`, nothing pending, no current
transaction. -/
def SLState.init (n : Nat) : SLState :=
  { counter := n, pending := [], current := none, active := [],
    firedLog := [], enqueuedLog := [], dequeuedLog := [] }

/-- Record a transaction as fired-and-unreleased (set semantics on tags). -/
def insertTag (l : List Nat) (t : Nat) : List Nat :=
  if t ∈ l then l else l ++ [t]

/-- An event against the `SynchronousLock`: a `submit(t)` call, or a
`release` performed on behalf of the fired transaction with tag `r`
(`Transaction.release` guarantees at most one release per transaction). -/
inductive SLEv where
  | submit (t : Tx)
  | release (r : Nat)
deriving DecidableEq, Repr

/-- Non-re-entrant part of `submit` (src/locks/SynchronousLock.ts lines
66-79): with remaining capacity, decrement the counter and fire the
transaction through `fireTransaction` (which sets `currentTransaction`,
lines 88-103); otherwise push it onto `pendingTransactions` and leave the
caller waiting on `transaction.wait()`. -/
def SLState.submitNormal (s : SLState) (t : Tx) : SLState :=
  if 0 < s.counter then
    { s with counter := s.counter - 1, current := some t,
             active := insertTag s.active t.tag, firedLog := s.firedLog ++ [t] }
  else
    { s with pending := s.pending ++ [t], enqueuedLog := s.enqueuedLog ++ [t] }

/-- One atomic step of the `SynchronousLock`.

`submit t` (lines 54-80): when `currentTransaction` exists and its `id`
equals `t.id`, return `transaction.fire()` directly — counter, queue and
`currentTransaction` untouched.  Otherwise proceed as `submitNormal`.

`release r` (lines 107-151): clear `currentTransaction`; then, when the
pending queue is non-empty, shift its head and schedule `fireTransaction` on
it (which sets `currentTransaction` and fires it) — the counter is untouched;
when the queue is empty, increment the counter. -/
def SLState.step (s : SLState) : SLEv → SLState
  | .submit t =>
    match s.current with
    | some c =>
      if c.id = t.id then
        { s with active := insertTag s.active t.tag, firedLog := s.firedLog ++ [t] }
      else s.submitNormal t
    | none => s.submitNormal t
  | .release r =>
    let s1 := { s with active := s.active.erase r, current := none }
    match s1.pending with
    | [] => { s1 with counter := s1.counter + 1 }
    | t :: rest =>
      { s1 with pending := rest, current := some t,
                active := insertTag s1.active t.tag,
                firedLog := s1.firedLog ++ [t],
                dequeuedLog := s1.dequeuedLog ++ [t] }

/-- Run a sequence of events from a state. -/
def SLState.run (s : SLState) : List SLEv → SLState
  | [] => s
  | e :: es => (s.step e).run es

/-- Well-formed use of the lock at a state: a submitted transaction whose id
collides with the current one is the current one itself (distinct in-flight
transactions have distinct ids), and a release is performed by a transaction
that is actually fired and unreleased. -/
def SLState.okEv (s : SLState) : SLEv → Bool
  | .submit t =>
    match s.current with
    | some c => decide (c.id = t.id → c = t)
    | none => true
  | .release r => decide (r ∈ s.active)

/-- Well-formed trace: every event is well-formed at the state it fires in. -/
def SLState.okTrace (s : SLState) : List SLEv → Bool
  | [] => true
  | e :: es => s.okEv e && (s.step e).okTrace es

/-- The admission invariant of a capacity-`n` `SynchronousLock`. -/
def SLInv (n : Nat) (s : SLState) : Prop :=
  s.active.length + s.counter ≤ n ∧
  (∀ c, s.current = some c → c.tag ∈ s.active) ∧
  (s.pending ≠ [] → s.counter = 0) ∧
  s.enqueuedLog = s.dequeuedLog ++ s.pending

/-! ## `Transaction` (src/Transaction.ts)

The `action` field holds the zero-argument thunk; invoking it yields the
settlement of the asynchronous execution it starts.  `completion` is the
`completion` promise handed out by `wait()` — `none` while unresolved.
`initialFireDispatched` is the flag guarding the one-time wiring of the
completion promise in `fire`. -/

structure Transaction (R : Type) where
  id : Nat
  source : String
  method : Option String
  logs : List String
  action : Option (Unit → Option (Nat × Except TxError R))
  initialFireDispatched : Bool
  completion : Option (Except TxError R)
  released : Bool

/-- The `Transaction` constructor (src/Transaction.ts lines 92-109): `id` is
`Date.now()` (passed in as `now`), the log opens with
`[this.id, source, method].join(" | ")` (JS renders an `undefined` member as
the empty string), the completion promise is fresh (unresolved) and no fire
or release has happened. -/
def Transaction.create (R : Type) (now : Nat) (source : String)
    (method : Option String)
    (action : Option (Unit → Option (Nat × Except TxError R))) :
    Transaction R :=
  { id := now, source := source, method := method,
    logs := [String.intercalate " | " [toString now, source, method.getD ""]],
    action := action, initialFireDispatched := false, completion := none,
    released := false }

/-- `Transaction.bindTransaction` (src/Transaction.ts lines 281-289): append
`nextTransaction`'s log lines to this transaction's logs and replace this
transaction's `action` with `nextTransaction`'s.  (The source also redirects
`nextTransaction`'s binding methods at the receiver; that rebinding has no
bearing on the receiver's state.) -/
def Transaction.bindTransaction {R : Type} (a : Transaction R)
    (b : Transaction R) : Transaction R :=
  { a with logs := a.logs ++ b.logs, action := b.action }

/-- Result of one `fire()` invocation as routed through
`applyGlobalTimeout`: the settlement the caller of `fire` observes (`none`
when the in-flight promise never settles), the lock-release attempts made by
the timeout path (`this.release(error)` calls), whether a failure of such an
attempt was logged (the `.catch(releaseErr => log.error(...))` handler), and
whether `clearTimeout` ran on settlement. -/
structure TimedOutcome (R : Type) where
  result : Option (Except TxError R)
  releaseAttempts : List TxError
  releaseFailureLogged : Bool
  timerCleared : Bool

/-- `Transaction.applyGlobalTimeout` (src/Transaction.ts lines 375-405).
When `Transaction.globalTimeout ≤ 0` the execution is returned untouched.
Otherwise the execution races a `setTimeout(..., gt)` timer: a settlement
strictly before `gt` ms wins the race, sets `settled`, clears the timer and
propagates the settlement; otherwise the timer fires first, a `TimeoutError`
is synthesized, `this.release(error)` is attempted (a failure of that attempt
is only logged) and the promise rejects with the `TimeoutError`.
`releaseFails` says whether the attempted release itself fails. -/
def applyGlobalTimeout {R : Type} (gt : Int) (releaseFails : Bool)
    (exec : Option (Nat × Except TxError R)) : TimedOutcome R :=
  if gt ≤ 0 then
    { result := exec.map (fun p => p.2), releaseAttempts := [],
      releaseFailureLogged := false, timerCleared := false }
  else
    match exec with
    | some (u, o) =>
      if (u : Int) < gt then
        { result := some o, releaseAttempts := [],
          releaseFailureLogged := false, timerCleared := true }
      else
        { result := some (.error (.timeout gt)),
          releaseAttempts := [.timeout gt],
          releaseFailureLogged := releaseFails, timerCleared := true }
    | none =>
      { result := some (.error (.timeout gt)),
        releaseAttempts := [.timeout gt],
        releaseFailureLogged := releaseFails, timerCleared := false }

/-- `Transaction.fire` (src/Transaction.ts lines 412-428): throw
`Missing the method` when no action is set; otherwise start the action,
route it through `applyGlobalTimeout`, and — only on the first invocation
(`initialFireDispatched` not yet set) — wire the execution's settlement to
the completion promise.  Every invocation returns its own execution. -/
def Transaction.fire {R : Type} (gt : Int) (releaseFails : Bool)
    (t : Transaction R) : Except TxError (TimedOutcome R × Transaction R) :=
  match t.action with
  | none => .error .missingMethod
  | some act =>
    let tr := applyGlobalTimeout gt releaseFails (act ())
    if t.initialFireDispatched then .ok (tr, t)
    else .ok (tr, { t with initialFireDispatched := true,
                           completion := tr.result })

/-- `Transaction.wait` (src/Transaction.ts lines 450-452): the completion
promise — its settlement, `none` while unresolved. -/
def Transaction.wait {R : Type} (t : Transaction R) :
    Option (Except TxError R) :=
  t.completion

/-- `Transaction.release` (instance, src/Transaction.ts lines 260-264): the
`released` flag makes the underlying lock release happen at most once; the
returned Bool says whether the lock's `release` was invoked this time. -/
def Transaction.releaseOnce {R : Type} (t : Transaction R) :
    Transaction R × Bool :=
  if t.released then (t, false) else ({ t with released := true }, true)

/-! ## `transactional` decorator (src/decorators.ts)

JavaScript values are modelled with enough structure for the truthiness and
`instanceof Error` tests that `exitFunction` performs. -/

inductive JSVal where
  | undef
  | boolean (b : Bool)
  | num (n : Int)
  | str (s : String)
  | obj (o : Nat)
  | errObj (e : TxError)
deriving DecidableEq, Repr

/-- JavaScript truthiness of the modelled values. -/
def JSVal.truthy : JSVal → Bool
  | .undef => false
  | .boolean b => b
  | .num n => n != 0
  | .str s => s != ""
  | .obj _ => true
  | .errObj _ => true

/-- The `instanceof Error` test. -/
def JSVal.isErrorInstance : JSVal → Bool
  | .errObj _ => true
  | _ => false

/-- What a settled top-level decorated call did: the arguments of the
`Transaction.release(err)` calls it made (in order; `undef` is a release with
no error), and the settlement of the promise returned to the caller. -/
structure ExitResult where
  lockReleases : List JSVal
  outcome : Except JSVal JSVal

/-- `exitFunction` inside the `transactional` proxy (src/decorators.ts lines
53-63): when `err` is truthy, not an `Error` instance, and `result` is falsy,
the thrown value is reclassified as the result; then `Transaction.release(err)`
is awaited once, and the promise rejects with `err` when it is truthy,
otherwise resolves with `result`. -/
def exitFunction (err res : JSVal) : ExitResult :=
  let p : JSVal × JSVal :=
    if err.truthy && !err.isErrorInstance && !res.truthy then (JSVal.undef, err)
    else (err, res)
  { lockReleases := [p.1],
    outcome := if p.1.truthy then .error p.1 else .ok p.2 }

/-- The top-level (no active transaction) path of the `transactional` proxy
(src/decorators.ts lines 99-118): the new transaction's action applies the
wrapped method and routes its settlement through `exitFunction` — a returned
value `v` as `exitFunction(undefined, v)`, a thrown/rejected value `e` as
`exitFunction(e)`. -/
def decoratorTopLevel (methodOutcome : Except JSVal JSVal) : ExitResult :=
  match methodOutcome with
  | .ok v => exitFunction JSVal.undef v
  | .error e => exitFunction e JSVal.undef

/-- An argument of a decorated call: either a `Transaction` instance or a
plain value. -/
inductive CallArg where
  | txn (t : Tx)
  | val (v : JSVal)
deriving DecidableEq, Repr

/-- The argument inspection of the `transactional` proxy (src/decorators.ts
lines 65-75): `argArray.shift()` takes the leading argument; when it is
defined and not a `Transaction` it is unshifted back; the active transaction
is the shifted `Transaction` when there was one, else
`Transaction.contextTransaction(thisArg)` (`ctx`).  Returns the remaining
argument array and the active transaction. -/
def decoratorDispatch (args : List CallArg) (ctx : Option Tx) :
    List CallArg × Option Tx :=
  match args with
  | [] => ([], ctx)
  | a :: rest =>
    match a with
    | .txn t => (rest, some t)
    | .val v => if v = .undef then (rest, ctx) else (a :: rest, ctx)

/-- Number of `Transaction.submit` calls (lock admissions) a decorated call
performs (src/decorators.ts lines 77-119): an active transaction leads to the
`bindTransaction` + `fire` path (no submission); otherwise the fresh
transaction is submitted once. -/
def decoratorAdmissions (args : List CallArg) (ctx : Option Tx) : Nat :=
  match (decoratorDispatch args ctx).2 with
  | some _ => 0
  | none => 1

/-- The leading `Transaction` argument of a call, when there is one — what
`argArray.shift()` followed by the `instanceof Transaction` test detects. -/
def leadingTransaction (args : List CallArg) : Option Tx :=
  match args with
  | CallArg.txn t :: _ => some t
  | _ => none

/-- Modelled from the spec: `transactionalSuperCall` is part of the
package's exported API (tests and docs import it from `src/index`), but its
defining module is not present under `src/`.  Per the spec (§4.6) it
"fetches the process-wide lock's `currentTransaction` and re-invokes
`method` with that transaction prepended" — the leading-argument convention
for a super call that bypasses proxy interception.  `cur` is the lock's
`currentTransaction`; prepending `undefined` models the call when no
transaction is current. -/
def transactionalSuperCall (cur : Option Tx) (args : List CallArg) :
    List CallArg :=
  match cur with
  | some t => CallArg.txn t :: args
  | none => CallArg.val JSVal.undef :: args

/-! ## `bindToTransaction` and the context weak map (src/Transaction.ts)

An object is modelled by the transactional method names its constructor
registered with the metadata collaborator, its `__transactionProxy` own
property, and its identity (`oid`, the WeakMap key).  The `contexts` weak map
is an association list from object identity to transaction id. -/

structure JSObject where
  ctorTransactionals : List String
  transactionProxyFlag : Bool
  oid : Nat
deriving DecidableEq, Repr

/-- `Transaction.bindToTransaction` (src/Transaction.ts lines 297-367),
restricted to the shape that decides proxy creation: when
`Metadata.transactionals(obj.constructor)` is empty the object itself is
returned (line 305) and the `contexts` weak map is untouched; otherwise a
fresh proxy (identity `freshOid`, `__transactionProxy` set, same constructor)
is created and recorded in the weak map for the owning transaction `txId`. -/
def bindToTransaction (txId : Nat) (freshOid : Nat) (obj : JSObject)
    (contexts : List (Nat × Nat)) : JSObject × List (Nat × Nat) :=
  if obj.ctorTransactionals = [] then (obj, contexts)
  else ({ ctorTransactionals := obj.ctorTransactionals,
          transactionProxyFlag := true, oid := freshOid },
        (freshOid, txId) :: contexts)

/-- `Transaction.contextTransaction` (src/Transaction.ts lines 443-448):
`undefined` unless the object carries `__transactionProxy`; otherwise the
weak-map lookup by the object's identity. -/
def contextTransaction (obj : JSObject) (contexts : List (Nat × Nat)) :
    Option Nat :=
  if !obj.transactionProxyFlag then none
  else (contexts.find? (fun p => p.1 = obj.oid)).map (fun p => p.2)

/-! ## Helper lemmas -/

theorem length_insertTag (l : List Nat) (t : Nat) :
    (insertTag l t).length ≤ l.length + 1 := by
  unfold insertTag
  split
  · omega
  · simp

theorem length_insertTag_mem (l : List Nat) (t : Nat) (h : t ∈ l) :
    (insertTag l t).length = l.length := by
  unfold insertTag
  simp [h]

theorem mem_insertTag (l : List Nat) (t : Nat) : t ∈ insertTag l t := by
  unfold insertTag
  split
  · assumption
  · simp

theorem mem_insertTag_of_mem (l : List Nat) (t u : Nat) (h : u ∈ l) :
    u ∈ insertTag l t := by
  unfold insertTag
  split
  · exact h
  · simp [h]

theorem SLInv.submitNormal {n : Nat} {s : SLState} {t : Tx}
    (hInv : SLInv n s) : SLInv n (s.submitNormal t) := by
  obtain ⟨hLen, hCur, hPend, hLog⟩ := hInv
  unfold SLState.submitNormal
  by_cases h0 : 0 < s.counter
  · rw [if_pos h0]
    refine ⟨?_, ?_, ?_, ?_⟩
    · have h1 : (insertTag s.active t.tag).length ≤ s.active.length + 1 :=
        length_insertTag _ _
      simp only
      omega
    · intro c hcl
      simp only [Option.some_inj] at hcl
      subst hcl
      exact mem_insertTag _ _
    · intro hne
      simp only at hne
      exact absurd (hPend hne) (by omega)
    · exact hLog
  · rw [if_neg h0]
    refine ⟨?_, ?_, ?_, ?_⟩
    · simpa using hLen
    · exact hCur
    · intro _
      show s.counter = 0
      omega
    · simp only [hLog, List.append_assoc]

theorem SLInv.step {n : Nat} {s : SLState} {e : SLEv}
    (hInv : SLInv n s) (hOk : s.okEv e = true) : SLInv n (s.step e) := by
  obtain ⟨hLen, hCur, hPend, hLog⟩ := hInv
  cases e with
  | submit t =>
    cases hc : s.current with
    | some c =>
      simp only [SLState.okEv, hc, decide_eq_true_eq] at hOk
      by_cases hid : c.id = t.id
      · have hct : c = t := hOk hid
        have hmem : t.tag ∈ s.active := hct ▸ hCur c hc
        have hstep : s.step (.submit t) =
            { s with active := insertTag s.active t.tag,
                     firedLog := s.firedLog ++ [t] } := by
          simp [SLState.step, hc, hid]
        rw [hstep]
        refine ⟨?_, ?_, ?_, ?_⟩
        · simp only
          rw [length_insertTag_mem s.active t.tag hmem]
          exact hLen
        · intro d hd
          simp only at hd
          exact mem_insertTag_of_mem _ _ _ (hCur d hd)
        · exact hPend
        · exact hLog
      · have hstep : s.step (.submit t) = s.submitNormal t := by
          simp [SLState.step, hc, hid]
        rw [hstep]
        exact SLInv.submitNormal ⟨hLen, hCur, hPend, hLog⟩
    | none =>
      have hstep : s.step (.submit t) = s.submitNormal t := by
        simp [SLState.step, hc]
      rw [hstep]
      exact SLInv.submitNormal ⟨hLen, hCur, hPend, hLog⟩
  | release r =>
    simp only [SLState.okEv, decide_eq_true_eq] at hOk
    have hErase : (s.active.erase r).length + 1 = s.active.length :=
      List.length_erase_add_one hOk
    cases hp : s.pending with
    | nil =>
      have hstep : s.step (.release r) =
          { s with active := s.active.erase r, current := none,
                   counter := s.counter + 1 } := by
        simp [SLState.step, hp]
      rw [hstep]
      refine ⟨?_, ?_, ?_, ?_⟩
      · simp only
        omega
      · intro c hcl
        simp at hcl
      · intro h
        simp only at h
        exact absurd hp h
      · simpa [hp] using hLog
    | cons t rest =>
      have hc0 : s.counter = 0 := hPend (by simp [hp])
      have hstep : s.step (.release r) =
          { s with pending := rest, current := some t,
                   active := insertTag (s.active.erase r) t.tag,
                   firedLog := s.firedLog ++ [t],
                   dequeuedLog := s.dequeuedLog ++ [t] } := by
        simp [SLState.step, hp]
      rw [hstep]
      refine ⟨?_, ?_, ?_, ?_⟩
      · have h1 : (insertTag (s.active.erase r) t.tag).length ≤
            (s.active.erase r).length + 1 := length_insertTag _ _
        simp only
        omega
      · intro c hcl
        simp only [Option.some_inj] at hcl
        subst hcl
        exact mem_insertTag _ _
      · intro _
        exact hc0
      · simp only [hLog, hp, List.append_assoc, List.singleton_append]

theorem SLInv.run {n : Nat} {s : SLState} {tr : List SLEv}
    (hInv : SLInv n s) (hOk : s.okTrace tr = true) : SLInv n (s.run tr) := by
  induction tr generalizing s with
  | nil => exact hInv
  | cons e es ih =>
    simp only [SLState.okTrace, Bool.and_eq_true] at hOk
    exact ih (hInv.step hOk.1) hOk.2

theorem SLInv.init (n : Nat) : SLInv n (SLState.init n) := by
  refine ⟨by simp [SLState.init], ?_, ?_, by simp [SLState.init]⟩
  · intro c hc
    simp [SLState.init] at hc
  · intro h
    simp [SLState.init] at h

/-! ## Claim theorems -/

/-- C1 (counterexample to the unconditional bound): submitting two distinct
transactions that share the id `100` to a capacity-1 `SynchronousLock` — the
situation of two `Transaction` objects constructed in the same millisecond —
leaves two transactions fired and not yet released at once, so the claimed
"at every point at most N" capacity bound does not hold unconditionally. -/
theorem synchronousLock_unconditional_bound_counterexample :
    ¬ (((SLState.init 1).run
        [SLEv.submit (Tx.mk 0 100), SLEv.submit (Tx.mk 1 100)]).active.length ≤ 1) := by
  decide

/-- C1 (amended): for a `SynchronousLock` of capacity `n`, along any
well-formed event trace — distinct in-flight transactions have distinct ids
(the counterexample above shows the bound fails otherwise, the id-based
re-entrancy test admitting a colliding transaction without a slot), and each
release is performed by a fired-and-unreleased transaction (what the
`released` flag of `Transaction.release`, src/Transaction.ts lines 260-264,
guarantees) — the number of fired-and-not-yet-released transactions never
exceeds `n`, and transactions enqueued while no capacity remained are
dispatched (dequeued, from `release`, when a slot frees) in exactly their
submission order: the enqueue log always equals the dequeue log followed by
the still-pending queue. -/
theorem synchronousLock_capacity_bound_and_fifo (n : Nat) (tr : List SLEv)
    (h : (SLState.init n).okTrace tr = true) :
    ((SLState.init n).run tr).active.length ≤ n ∧
    ((SLState.init n).run tr).enqueuedLog =
      ((SLState.init n).run tr).dequeuedLog ++ ((SLState.init n).run tr).pending := by
  have hInv := SLInv.run (SLInv.init n) h
  refine ⟨?_, hInv.2.2.2⟩
  have := hInv.1
  omega

theorem synchronousLock_capacity_bound_and_fifo_witness :
    (SLState.init 1).okTrace
      [SLEv.submit ⟨0, 10⟩, SLEv.submit ⟨1, 20⟩, SLEv.submit ⟨2, 30⟩,
       SLEv.release 0, SLEv.release 1, SLEv.release 2] = true ∧
    (((SLState.init 1).run
        [SLEv.submit ⟨0, 10⟩, SLEv.submit ⟨1, 20⟩, SLEv.submit ⟨2, 30⟩,
         SLEv.release 0, SLEv.release 1, SLEv.release 2]).active.length ≤ 1 ∧
     ((SLState.init 1).run
        [SLEv.submit ⟨0, 10⟩, SLEv.submit ⟨1, 20⟩, SLEv.submit ⟨2, 30⟩,
         SLEv.release 0, SLEv.release 1, SLEv.release 2]).enqueuedLog =
       ((SLState.init 1).run
          [SLEv.submit ⟨0, 10⟩, SLEv.submit ⟨1, 20⟩, SLEv.submit ⟨2, 30⟩,
           SLEv.release 0, SLEv.release 1, SLEv.release 2]).dequeuedLog ++
         ((SLState.init 1).run
            [SLEv.submit ⟨0, 10⟩, SLEv.submit ⟨1, 20⟩, SLEv.submit ⟨2, 30⟩,
             SLEv.release 0, SLEv.release 1, SLEv.release 2]).pending) :=
  ⟨by decide,
   synchronousLock_capacity_bound_and_fifo 1
     [SLEv.submit ⟨0, 10⟩, SLEv.submit ⟨1, 20⟩, SLEv.submit ⟨2, 30⟩,
      SLEv.release 0, SLEv.release 1, SLEv.release 2] (by decide)⟩

/-- C3: when the submitted transaction's id equals the current transaction's
id, `submit` fires it immediately (it is appended to the fired log) without
decrementing the capacity counter and without enqueuing it — all other state
components are untouched. -/
theorem reentrant_submit_fires_immediately (s : SLState) (t c : Tx)
    (hc : s.current = some c) (hid : c.id = t.id) :
    s.step (SLEv.submit t) =
      { s with active := insertTag s.active t.tag,
               firedLog := s.firedLog ++ [t] } := by
  simp [SLState.step, hc, hid]

theorem reentrant_submit_fires_immediately_witness :
    ((SLState.init 1).step (SLEv.submit ⟨0, 5⟩)).current = some (⟨0, 5⟩ : Tx) ∧
    (⟨0, 5⟩ : Tx).id = (⟨0, 5⟩ : Tx).id ∧
    ((SLState.init 1).step (SLEv.submit ⟨0, 5⟩)).step (SLEv.submit ⟨0, 5⟩) =
      { (SLState.init 1).step (SLEv.submit ⟨0, 5⟩) with
        active := insertTag ((SLState.init 1).step (SLEv.submit ⟨0, 5⟩)).active 0,
        firedLog := ((SLState.init 1).step (SLEv.submit ⟨0, 5⟩)).firedLog ++ [⟨0, 5⟩] } :=
  ⟨by decide, rfl,
   reentrant_submit_fires_immediately ((SLState.init 1).step (SLEv.submit ⟨0, 5⟩))
     ⟨0, 5⟩ ⟨0, 5⟩ (by decide) rfl⟩

/-- C4 (counterexample): two distinct transactions constructed in the same
millisecond share the id `100`; after submitting both to a capacity-1
`SynchronousLock`, the second is admitted through the re-entrancy branch
solely because the ids are equal, and two distinct transactions are fired
and unreleased at once — the capacity bound is broken. -/
theorem id_collision_breaks_capacity_counterexample :
    (Tx.mk 0 100 ≠ Tx.mk 1 100) ∧ (Tx.mk 0 100).id = (Tx.mk 1 100).id ∧
    1 < ((SLState.init 1).run
          [SLEv.submit (Tx.mk 0 100), SLEv.submit (Tx.mk 1 100)]).active.length := by
  refine ⟨by decide, rfl, by decide⟩

/-- C4 (amended): re-entrancy in `submit` is decided by id equality alone,
so a distinct transaction whose id collides with the current one is fired
immediately — no counter decrement, no enqueue — and, its tag being new, the
fired-and-unreleased count grows by one without consuming capacity; id
collisions therefore do break the capacity bound, which holds only for
traces in which distinct in-flight transactions have distinct ids. -/
theorem id_collision_admits_distinct_transaction (s : SLState) (t c : Tx)
    (hc : s.current = some c) (hid : c.id = t.id) (hne : c ≠ t)
    (hnew : t.tag ∉ s.active) :
    s.step (SLEv.submit t) =
      { s with active := s.active ++ [t.tag],
               firedLog := s.firedLog ++ [t] } ∧
    (s.step (SLEv.submit t)).active.length = s.active.length + 1 ∧
    (s.step (SLEv.submit t)).counter = s.counter ∧
    (s.step (SLEv.submit t)).pending = s.pending := by
  have hstep : s.step (SLEv.submit t) =
      { s with active := s.active ++ [t.tag], firedLog := s.firedLog ++ [t] } := by
    simp [SLState.step, hc, hid, insertTag, hnew]
  refine ⟨hstep, ?_, ?_, ?_⟩ <;> rw [hstep] <;> simp

theorem id_collision_admits_distinct_transaction_witness :
    ((SLState.init 1).step (SLEv.submit ⟨0, 100⟩)).current = some (⟨0, 100⟩ : Tx) ∧
    (⟨0, 100⟩ : Tx).id = (⟨1, 100⟩ : Tx).id ∧
    (⟨0, 100⟩ : Tx) ≠ (⟨1, 100⟩ : Tx) ∧
    (1 : Nat) ∉ ((SLState.init 1).step (SLEv.submit ⟨0, 100⟩)).active ∧
    (((SLState.init 1).step (SLEv.submit ⟨0, 100⟩)).step
        (SLEv.submit ⟨1, 100⟩)).active.length =
      ((SLState.init 1).step (SLEv.submit ⟨0, 100⟩)).active.length + 1 :=
  ⟨by decide, rfl, by decide, by decide,
   (id_collision_admits_distinct_transaction
     ((SLState.init 1).step (SLEv.submit ⟨0, 100⟩)) ⟨1, 100⟩ ⟨0, 100⟩
     (by decide) rfl (by decide) (by decide)).2.1⟩

/-- C5: `Lock.acquire` grants immediately and marks the lock held when it is
free, and appends the caller's continuation at the back of the FIFO queue
when it is held; `Lock.release` hands the lock to the oldest queued waiter
by returning that waiter's continuation for deferred (next-tick) scheduling
— the `locked` flag stays set — and clears `locked` exactly when the queue
is empty. -/
theorem lock_acquire_release_behavior (s : LockState) (w v : Nat)
    (rest : List Nat) :
    (s.locked = false → s.acquire w = ({ s with locked := true }, true)) ∧
    (s.locked = true → s.acquire w = ({ s with queue := s.queue ++ [w] }, false)) ∧
    (s.queue = [] → s.release = ({ s with locked := false }, none)) ∧
    (s.queue = v :: rest → s.release = ({ s with queue := rest }, some v)) := by
  refine ⟨?_, ?_, ?_, ?_⟩
  · intro h
    simp [LockState.acquire, h]
  · intro h
    simp [LockState.acquire, h]
  · intro h
    simp [LockState.release, h]
  · intro h
    simp [LockState.release, h]

theorem lock_acquire_release_behavior_witness :
    (LockState.init.locked = false ∧
      LockState.init.acquire 3 = ({ LockState.init with locked := true }, true)) ∧
    (({ locked := true, queue := [4, 5] } : LockState).queue = 4 :: [5] ∧
      ({ locked := true, queue := [4, 5] } : LockState).release =
        ({ ({ locked := true, queue := [4, 5] } : LockState) with
            queue := [5] }, some 4)) :=
  ⟨⟨rfl, (lock_acquire_release_behavior LockState.init 3 0 []).1 rfl⟩,
   ⟨rfl, (lock_acquire_release_behavior
     ({ locked := true, queue := [4, 5] } : LockState) 3 4 [5]).2.2.2 rfl⟩⟩

/-- C2: a top-level call of a method wrapped by the `transactional` decorator
(no active transaction for the receiver) resolves with exactly the wrapped
method's value when it returns; when the wrapped method throws or rejects
with an `Error` instance, the lock's release is invoked exactly once with
that error and the call rejects with the original error. -/
theorem transactional_toplevel_routing (v : JSVal) (e : TxError) :
    (decoratorTopLevel (Except.ok v)).outcome = Except.ok v ∧
    decoratorTopLevel (Except.error (JSVal.errObj e)) =
      { lockReleases := [JSVal.errObj e],
        outcome := Except.error (JSVal.errObj e) } := by
  constructor
  · simp [decoratorTopLevel, exitFunction, JSVal.truthy]
  · simp [decoratorTopLevel, exitFunction, JSVal.truthy, JSVal.isErrorInstance]

/-- C6: `A.bindTransaction(B)` appends all of B's log lines to A's logs and
replaces A's action with B's action, so a subsequent `A.fire()` executes what
was B's work (its settlement is B's action routed through the global
timeout). -/
theorem bindTransaction_merges_logs_and_action (R : Type)
    (a b : Transaction R) (gt : Int) (rf : Bool)
    (act : Unit → Option (Nat × Except TxError R))
    (hb : b.action = some act) :
    (a.bindTransaction b).logs = a.logs ++ b.logs ∧
    (a.bindTransaction b).action = b.action ∧
    (Transaction.fire gt rf (a.bindTransaction b)).map Prod.fst =
      Except.ok (applyGlobalTimeout gt rf (act ())) := by
  refine ⟨rfl, rfl, ?_⟩
  unfold Transaction.fire Transaction.bindTransaction
  simp only [hb]
  by_cases hf : a.initialFireDispatched <;> simp [hf, Except.map]

theorem bindTransaction_merges_logs_and_action_witness :
    (Transaction.create Nat 2 "B" (some "n")
        (some (fun _ => some (0, Except.ok 2)))).action =
      some (fun _ => some (0, Except.ok 2)) ∧
    ((Transaction.create Nat 1 "A" (some "m")
        (some (fun _ => some (0, Except.ok 1)))).bindTransaction
      (Transaction.create Nat 2 "B" (some "n")
        (some (fun _ => some (0, Except.ok 2))))).logs =
      (Transaction.create Nat 1 "A" (some "m")
        (some (fun _ => some (0, Except.ok 1)))).logs ++
      (Transaction.create Nat 2 "B" (some "n")
        (some (fun _ => some (0, Except.ok 2)))).logs ∧
    (Transaction.fire (-1) false
        ((Transaction.create Nat 1 "A" (some "m")
            (some (fun _ => some (0, Except.ok 1)))).bindTransaction
          (Transaction.create Nat 2 "B" (some "n")
            (some (fun _ => some (0, Except.ok 2)))))).map Prod.fst =
      Except.ok (applyGlobalTimeout (-1) false
        ((fun _ => some (0, Except.ok 2)) ())) :=
  ⟨rfl,
   (bindTransaction_merges_logs_and_action Nat
     (Transaction.create Nat 1 "A" (some "m")
       (some (fun _ => some (0, Except.ok 1))))
     (Transaction.create Nat 2 "B" (some "n")
       (some (fun _ => some (0, Except.ok 2))))
     (-1) false (fun _ => some (0, Except.ok 2)) rfl).1,
   (bindTransaction_merges_logs_and_action Nat
     (Transaction.create Nat 1 "A" (some "m")
       (some (fun _ => some (0, Except.ok 1))))
     (Transaction.create Nat 2 "B" (some "n")
       (some (fun _ => some (0, Except.ok 2))))
     (-1) false (fun _ => some (0, Except.ok 2)) rfl).2.2⟩

/-- C7: `fire` may be invoked multiple times; only the first invocation's
settlement populates the completion future returned by `wait` (`t1.wait` is
the first execution's result), while a later invocation — here after the
transaction was re-bound to a new action by `bindTransaction` — returns its
own execution and leaves the completion future untouched. -/
theorem fire_first_invocation_settles_completion (R : Type)
    (t b t1 : Transaction R) (tr1 : TimedOutcome R) (gt1 gt2 : Int)
    (rf1 rf2 : Bool) (act1 act2 : Unit → Option (Nat × Except TxError R))
    (hflag : t.initialFireDispatched = false)
    (hact : t.action = some act1) (hb : b.action = some act2)
    (hfire1 : Transaction.fire gt1 rf1 t = Except.ok (tr1, t1)) :
    t1.wait = tr1.result ∧
    Transaction.fire gt2 rf2 (t1.bindTransaction b) =
      Except.ok (applyGlobalTimeout gt2 rf2 (act2 ()), t1.bindTransaction b) ∧
    (t1.bindTransaction b).wait = tr1.result := by
  have h1 : Transaction.fire gt1 rf1 t =
      Except.ok (applyGlobalTimeout gt1 rf1 (act1 ()),
        { t with initialFireDispatched := true,
                 completion := (applyGlobalTimeout gt1 rf1 (act1 ())).result }) := by
    unfold Transaction.fire
    simp [hact, hflag]
  rw [h1] at hfire1
  injection hfire1 with h2
  injection h2 with hA hB
  subst hA
  subst hB
  refine ⟨rfl, ?_, rfl⟩
  unfold Transaction.fire Transaction.bindTransaction
  simp [hb]

theorem fire_first_invocation_settles_completion_witness :
    (Transaction.create Nat 5 "A" (some "m")
        (some (fun _ => some (0, Except.ok 1)))).initialFireDispatched = false ∧
    Transaction.fire (-1) false
        (Transaction.create Nat 5 "A" (some "m")
          (some (fun _ => some (0, Except.ok 1)))) =
      Except.ok
        ({ result := some (Except.ok 1), releaseAttempts := [],
           releaseFailureLogged := false, timerCleared := false },
         { Transaction.create Nat 5 "A" (some "m")
             (some (fun _ => some (0, Except.ok 1))) with
           initialFireDispatched := true,
           completion := some (Except.ok 1) }) ∧
    ({ Transaction.create Nat 5 "A" (some "m")
         (some (fun _ => some (0, Except.ok 1))) with
       initialFireDispatched := true,
       completion := some (Except.ok 1) } : Transaction Nat).wait =
      some (Except.ok 1) ∧
    (({ Transaction.create Nat 5 "A" (some "m")
          (some (fun _ => some (0, Except.ok 1))) with
        initialFireDispatched := true,
        completion := some (Except.ok 1) } : Transaction Nat).bindTransaction
      (Transaction.create Nat 6 "B" (some "n")
        (some (fun _ => some (0, Except.ok 2))))).wait = some (Except.ok 1) :=
  ⟨rfl, rfl, rfl,
   (fire_first_invocation_settles_completion Nat
     (Transaction.create Nat 5 "A" (some "m")
       (some (fun _ => some (0, Except.ok 1))))
     (Transaction.create Nat 6 "B" (some "n")
       (some (fun _ => some (0, Except.ok 2))))
     ({ Transaction.create Nat 5 "A" (some "m")
          (some (fun _ => some (0, Except.ok 1))) with
        initialFireDispatched := true,
        completion := some (Except.ok 1) })
     ({ result := some (Except.ok 1), releaseAttempts := [],
        releaseFailureLogged := false, timerCleared := false })
     (-1) (-1) false false
     (fun _ => some (0, Except.ok 1)) (fun _ => some (0, Except.ok 2))
     rfl rfl rfl rfl).2.2⟩

/-- C8: with the global timeout configured to `gt > 0` ms, an action settling
strictly within `gt` ms has its timer cleared, its own settlement propagated
and no lock release attempted; an action that does not settle within `gt` ms
— whether it settles late, at `uLate ≥ gt` after the timer has fired, or
never settles at all — makes the `fire` promise reject with a `TimeoutError`
and a best-effort lock release to be attempted with that error; whether that
attempt fails (`rf`) only shows up as a logged failure, never in the
rejection. -/
theorem global_timeout_behavior (R : Type) (gt : Int) (rf : Bool)
    (u uLate : Nat) (o oLate : Except TxError R) (t tLate : Transaction R)
    (act actLate : Unit → Option (Nat × Except TxError R))
    (hpos : 0 < gt) (hu : (u : Int) < gt) (hLate : gt ≤ (uLate : Int))
    (hflag : t.initialFireDispatched = false)
    (hact : t.action = some act) (hnever : act () = none)
    (hflagLate : tLate.initialFireDispatched = false)
    (hactLate : tLate.action = some actLate)
    (hsettleLate : actLate () = some (uLate, oLate)) :
    applyGlobalTimeout gt rf (some (u, o)) =
      { result := some o, releaseAttempts := [],
        releaseFailureLogged := false, timerCleared := true } ∧
    applyGlobalTimeout gt rf (some (uLate, oLate)) =
      { result := some (Except.error (TxError.timeout gt)),
        releaseAttempts := [TxError.timeout gt],
        releaseFailureLogged := rf, timerCleared := true } ∧
    Transaction.fire gt rf t =
      Except.ok
        ({ result := some (Except.error (TxError.timeout gt)),
           releaseAttempts := [TxError.timeout gt],
           releaseFailureLogged := rf, timerCleared := false },
         { t with initialFireDispatched := true,
                  completion := some (Except.error (TxError.timeout gt)) }) ∧
    Transaction.fire gt rf tLate =
      Except.ok
        ({ result := some (Except.error (TxError.timeout gt)),
           releaseAttempts := [TxError.timeout gt],
           releaseFailureLogged := rf, timerCleared := true },
         { tLate with initialFireDispatched := true,
                      completion := some (Except.error (TxError.timeout gt)) }) := by
  have hgt : ¬ gt ≤ 0 := by omega
  have hnot : ¬ (uLate : Int) < gt := by omega
  refine ⟨?_, ?_, ?_, ?_⟩
  · simp [applyGlobalTimeout, hgt, hu]
  · simp [applyGlobalTimeout, hgt, hnot]
  · unfold Transaction.fire
    simp [hact, hflag, hnever, applyGlobalTimeout, hgt]
  · unfold Transaction.fire
    simp [hactLate, hflagLate, hsettleLate, applyGlobalTimeout, hgt, hnot]

theorem global_timeout_behavior_witness :
    (0 : Int) < 7 ∧ ((2 : Nat) : Int) < 7 ∧ (7 : Int) ≤ ((10 : Nat) : Int) ∧
    (Transaction.create Nat 9 "S" (some "m")
        (some (fun _ => none))).initialFireDispatched = false ∧
    (Transaction.create Nat 9 "S" (some "m")
        (some (fun _ => none))).action = some (fun _ => none) ∧
    (Transaction.create Nat 11 "L" (some "k")
        (some (fun _ => some (10, Except.ok 4)))).initialFireDispatched = false ∧
    (Transaction.create Nat 11 "L" (some "k")
        (some (fun _ => some (10, Except.ok 4)))).action =
      some (fun _ => some (10, Except.ok 4)) ∧
    (applyGlobalTimeout 7 true (some (2, Except.ok (3 : Nat))) =
      { result := some (Except.ok 3), releaseAttempts := [],
        releaseFailureLogged := false, timerCleared := true } ∧
     applyGlobalTimeout 7 true (some (10, Except.ok (4 : Nat))) =
      { result := some (Except.error (TxError.timeout 7)),
        releaseAttempts := [TxError.timeout 7],
        releaseFailureLogged := true, timerCleared := true } ∧
     Transaction.fire 7 true
        (Transaction.create Nat 9 "S" (some "m") (some (fun _ => none))) =
      Except.ok
        ({ result := some (Except.error (TxError.timeout 7)),
           releaseAttempts := [TxError.timeout 7],
           releaseFailureLogged := true, timerCleared := false },
         { Transaction.create Nat 9 "S" (some "m") (some (fun _ => none)) with
           initialFireDispatched := true,
           completion := some (Except.error (TxError.timeout 7)) }) ∧
     Transaction.fire 7 true
        (Transaction.create Nat 11 "L" (some "k")
          (some (fun _ => some (10, Except.ok 4)))) =
      Except.ok
        ({ result := some (Except.error (TxError.timeout 7)),
           releaseAttempts := [TxError.timeout 7],
           releaseFailureLogged := true, timerCleared := true },
         { Transaction.create Nat 11 "L" (some "k")
             (some (fun _ => some (10, Except.ok 4))) with
           initialFireDispatched := true,
           completion := some (Except.error (TxError.timeout 7)) })) :=
  ⟨by decide, by decide, by decide, rfl, rfl, rfl, rfl,
   global_timeout_behavior Nat 7 true 2 10 (Except.ok 3) (Except.ok 4)
     (Transaction.create Nat 9 "S" (some "m") (some (fun _ => none)))
     (Transaction.create Nat 11 "L" (some "k")
       (some (fun _ => some (10, Except.ok 4))))
     (fun _ => none) (fun _ => some (10, Except.ok 4))
     (by decide) (by decide) (by decide) rfl rfl rfl rfl rfl rfl⟩

/-- C9: `transactionalSuperCall` re-invokes the method with the process-wide
lock's `currentTransaction` prepended to the arguments; the decorated super
implementation then sees it as its leading argument and joins it (the bind
path, no submission), so a subclass override that starts one top-level
admission and delegates through the helper performs exactly one lock
admission in total. -/
theorem transactionalSuperCall_single_admission (t : Tx)
    (args outerArgs : List CallArg) (ctx : Option Tx)
    (houter : leadingTransaction outerArgs = none) :
    transactionalSuperCall (some t) args = CallArg.txn t :: args ∧
    decoratorDispatch (transactionalSuperCall (some t) args) ctx =
      (args, some t) ∧
    decoratorAdmissions outerArgs none +
      decoratorAdmissions (transactionalSuperCall (some t) args) ctx = 1 := by
  refine ⟨rfl, rfl, ?_⟩
  have hinner :
      decoratorAdmissions (transactionalSuperCall (some t) args) ctx = 0 := rfl
  have houter1 : decoratorAdmissions outerArgs none = 1 := by
    unfold decoratorAdmissions decoratorDispatch
    cases outerArgs with
    | nil => rfl
    | cons a rest =>
      cases a with
      | txn u => simp [leadingTransaction] at houter
      | val v => by_cases hv : v = JSVal.undef <;> simp [hv]
  rw [hinner, houter1]

theorem transactionalSuperCall_single_admission_witness :
    leadingTransaction [CallArg.val (JSVal.num 1)] = none ∧
    (transactionalSuperCall (some ⟨0, 5⟩) [CallArg.val (JSVal.str "x")] =
      CallArg.txn ⟨0, 5⟩ :: [CallArg.val (JSVal.str "x")] ∧
     decoratorDispatch
        (transactionalSuperCall (some ⟨0, 5⟩) [CallArg.val (JSVal.str "x")])
        none =
      ([CallArg.val (JSVal.str "x")], some ⟨0, 5⟩) ∧
     decoratorAdmissions [CallArg.val (JSVal.num 1)] none +
       decoratorAdmissions
         (transactionalSuperCall (some ⟨0, 5⟩) [CallArg.val (JSVal.str "x")])
         none = 1) :=
  ⟨rfl,
   transactionalSuperCall_single_admission ⟨0, 5⟩
     [CallArg.val (JSVal.str "x")] [CallArg.val (JSVal.num 1)] none rfl⟩

/-- C10: for an object whose constructor has no transactional methods
registered with the metadata collaborator, `bindToTransaction` returns the
object itself — no proxy is created and the contexts weak map is untouched —
so `Transaction.contextTransaction` on that (non-proxy) object is
`undefined`. -/
theorem bindToTransaction_identity_without_transactionals
    (txId freshOid : Nat) (obj : JSObject) (contexts : List (Nat × Nat))
    (hempty : obj.ctorTransactionals = [])
    (hplain : obj.transactionProxyFlag = false) :
    bindToTransaction txId freshOid obj contexts = (obj, contexts) ∧
    contextTransaction obj contexts = none := by
  constructor
  · simp [bindToTransaction, hempty]
  · simp [contextTransaction, hplain]

theorem bindToTransaction_identity_without_transactionals_witness :
    ({ ctorTransactionals := [], transactionProxyFlag := false,
       oid := 11 } : JSObject).ctorTransactionals = [] ∧
    ({ ctorTransactionals := [], transactionProxyFlag := false,
       oid := 11 } : JSObject).transactionProxyFlag = false ∧
    (bindToTransaction 3 99
        ({ ctorTransactionals := [], transactionProxyFlag := false,
           oid := 11 } : JSObject) [(11, 8)] =
      (({ ctorTransactionals := [], transactionProxyFlag := false,
          oid := 11 } : JSObject), [(11, 8)]) ∧
     contextTransaction
        ({ ctorTransactionals := [], transactionProxyFlag := false,
           oid := 11 } : JSObject) [(11, 8)] = none) :=
  ⟨rfl, rfl,
   bindToTransaction_identity_without_transactionals 3 99
     ({ ctorTransactionals := [], transactionProxyFlag := false,
        oid := 11 } : JSObject) [(11, 8)] rfl rfl⟩

end TransactionalDecorators
